import Mathlib

/-!
# List-to-tuple native of the Zerynth runtime (`src/csrc/tuple_ifc.c`)

The C function `_totuple` is embedded as a pure function on an explicit
machine state.  The host runtime (`zerynth.h`: object model, allocator,
accessor macros, calling convention) is not part of the repository; the few
host operations the function calls are modelled below and marked as such.
-/

set_option linter.unusedVariables false

namespace Zerynth

/-! ## Host object model -/

/-- Modelled from the spec: the type tags of `zerynth.h` (absent from the
sources).  Only `PLIST` and `PTUPLE` are named by `tuple_ifc.c`; the other
tags stand for the remaining variants (numbers, mappings, ...). -/
inductive PType
  | PSMALLINT
  | PINTEGER
  | PFLOAT
  | PBOOL
  | PNONE
  | PSTRING
  | PLIST
  | PTUPLE
  | PSET
  | PDICT
  deriving DecidableEq, Repr

/-- Modelled from the spec: an opaque element handle (`PObject *`).  A handle
is the null pointer, an immediate small integer, or the address of an object
of the host heap.  Handles are compared, never dereferenced, when copied. -/
inductive PObject
  | NULL
  | smallint (v : Int)
  | ref (addr : Nat)
  deriving DecidableEq, Repr

/-- Modelled from the spec: an object of the host heap, its type tag and, for
sequences, its element handles; the element count of a sequence is the number
of its elements. -/
structure HeapObj where
  type : PType
  items : List PObject
  deriving DecidableEq, Repr

/-- Modelled from the spec: the status codes of `zerynth.h` a native returns.
`ERR_OK` is named by `tuple_ifc.c`; `ERR_TYPE_EXC` is the type-mismatch status
that the macro `CHECK_ARG` returns. -/
inductive err_t
  | ERR_OK
  | ERR_TYPE_EXC
  deriving DecidableEq, Repr

/-- Machine state seen by the native.
* `heap`: the objects of the host allocator, an address being a position;
* `res`: the content of the result slot `*res`;
* `allocs`: observation log of the requests made to `psequence_new`;
* `stores`: observation log of the stores made by `PTUPLE_SET_ITEM`, as
  (destination, index, value).
The two logs are never read by the code. -/
structure VM where
  heap : List HeapObj
  res : PObject
  allocs : List (PType × Nat)
  stores : List (PObject × Nat × PObject)
  deriving DecidableEq, Repr

/-- Ways in which a run of the model stops without returning: the fuel of the
loop is exhausted, or a memory access is outside an object. -/
inductive Trap
  | out_of_fuel
  | invalid_access
  deriving DecidableEq, Repr

deriving instance DecidableEq for Except

/-- Width of `uint32_t`. -/
def UINT32_MOD : Nat := 2 ^ 32

/-! ## Host operations used by `_totuple` -/

/-- Modelled from the spec: the type tag of a handle, as `CHECK_ARG` reads it.
Immediates are small integers; a reference has the tag of its heap object. -/
def parse_py_type (vm : VM) : PObject → Option PType
  | .NULL => none
  | .smallint _ => some .PSMALLINT
  | .ref a => (vm.heap[a]?).map (fun o => o.type)

/-- Modelled from the spec: `PSEQUENCE_ELEMENTS(seq)`, the element count of a
sequence object. -/
def PSEQUENCE_ELEMENTS (vm : VM) : PObject → Option Nat
  | .ref a => (vm.heap[a]?).map (fun o => o.items.length)
  | _ => none

/-- Modelled from the spec: `PLIST_ITEM(lst, i)`, the element accessor by
zero-based index; `none` when the index is outside the object. -/
def PLIST_ITEM (vm : VM) (lst : PObject) (i : Nat) : Option PObject :=
  match lst with
  | .ref a =>
    match vm.heap[a]? with
    | some o => o.items[i]?
    | none => none
  | _ => none

/-- Modelled from the spec: `psequence_new(type, elements)`, the allocation of
a new sequence object of `elements` slots at a fresh address.  Allocation
failure is outside the scope of the specification. -/
def psequence_new (vm : VM) (type : PType) (elements : Nat) : PObject × VM :=
  (.ref vm.heap.length,
    { vm with
      heap := vm.heap ++ [⟨type, List.replicate elements .NULL⟩]
      allocs := vm.allocs ++ [(type, elements)] })

/-- Modelled from the spec: `PTUPLE_SET_ITEM(tpl, i, x)`, the store of handle
`x` in slot `i` of `tpl`; `none` when the slot is outside the object. -/
def PTUPLE_SET_ITEM (vm : VM) (tpl : PObject) (i : Nat) (x : PObject) : Option VM :=
  match tpl with
  | .ref a =>
    match vm.heap[a]? with
    | some o =>
      if i < o.items.length then
        some { vm with
          heap := vm.heap.set a { o with items := o.items.set i x }
          stores := vm.stores ++ [(tpl, i, x)] }
      else none
    | none => none
  | _ => none

/-! ## The native -/

/-- One trip through `for (uint32_t i=0; i<list_len; i++)`: the test and, when
it holds, the body `PTUPLE_SET_ITEM(mtuple, i, PLIST_ITEM(args[0], i))`
followed by the increment modulo `2^32`.  `none` is the exit of the loop. -/
def for_iter (list_len : Nat) (args0 mtuple : PObject) (i : Nat) (vm : VM) :
    Except Trap (Option (Nat × VM)) :=
  if i < list_len then
    match PLIST_ITEM vm args0 i with
    | none => .error .invalid_access
    | some x =>
      match PTUPLE_SET_ITEM vm mtuple i x with
      | none => .error .invalid_access
      | some vm1 => .ok (some ((i + 1) % UINT32_MOD, vm1))
  else .ok none

/-- The whole loop, one unit of fuel per evaluation of the test. -/
def for_loop (list_len : Nat) (args0 mtuple : PObject) : Nat → Nat → VM → Except Trap VM
  | 0, _, _ => .error .out_of_fuel
  | fuel + 1, i, vm =>
    match for_iter list_len args0 mtuple i vm with
    | .error e => .error e
    | .ok none => .ok vm
    | .ok (some (i1, vm1)) => for_loop list_len args0 mtuple fuel i1 vm1

/-- The counter and the state after at most `k` trips of the loop (fewer when
the loop has exited before). -/
def for_trips (list_len : Nat) (args0 mtuple : PObject) : Nat → Nat → VM → Except Trap (Nat × VM)
  | 0, i, vm => .ok (i, vm)
  | k + 1, i, vm =>
    match for_iter list_len args0 mtuple i vm with
    | .error e => .error e
    | .ok none => .ok (i, vm)
    | .ok (some (i1, vm1)) => for_trips list_len args0 mtuple k i1 vm1

/-- The native `C_NATIVE(_totuple)`, of C signature
`err_t _totuple(int32_t nargs, PObject *self, PObject **args, PObject **res)`.
`NATIVE_UNWARN()` only silences the unused parameters.  `CHECK_ARG` returns
the type-mismatch status when the tag of `args[0]` is not `PLIST`. -/
def _totuple (fuel : Nat) (nargs : Int) (self : PObject) (args : List PObject) (vm : VM) :
    Except Trap (err_t × VM) :=
  match args[0]? with
  | none => .error .invalid_access
  | some args0 =>
    match parse_py_type vm args0 with
    | none => .error .invalid_access
    | some t =>
      if t ≠ .PLIST then .ok (.ERR_TYPE_EXC, vm)
      else
        match PSEQUENCE_ELEMENTS vm args0 with
        | none => .error .invalid_access
        | some elements =>
          let list_len := elements % UINT32_MOD
          let alloc := psequence_new vm .PTUPLE list_len
          match for_loop list_len args0 alloc.1 fuel 0 alloc.2 with
          | .error e => .error e
          | .ok vm2 => .ok (.ERR_OK, { vm2 with res := alloc.1 })

/-! ## Vocabulary of the statements -/

/-- The stores the loop is expected to make for a source `S` and a destination
`dst`: `(dst, 0, S[0]), (dst, 1, S[1]), ...` in ascending order. -/
def expected_stores (dst : PObject) (S : List PObject) : List (PObject × Nat × PObject) :=
  ((List.range S.length).zip S).map (fun p => (dst, p.1, p.2))

/-- A state whose heap holds the list `[1, 2, 3]` at address 0 and a mapping at
address 1. -/
def vm_example : VM :=
  { heap := [⟨.PLIST, [.smallint 1, .smallint 2, .smallint 3]⟩, ⟨.PDICT, []⟩]
    res := .NULL
    allocs := []
    stores := [] }

/-- A state whose heap holds the empty list at address 0. -/
def vm_empty : VM :=
  { heap := [⟨.PLIST, []⟩]
    res := .NULL
    allocs := []
    stores := [] }

/-- The state reached from `vm` once the tuple is allocated and the first `k`
elements of the source `S` are stored in it. -/
def state_after (vm : VM) (S : List PObject) (k : Nat) : VM :=
  { heap := vm.heap ++ [⟨.PTUPLE, S.take k ++ List.replicate (S.length - k) .NULL⟩]
    res := vm.res
    allocs := vm.allocs ++ [(.PTUPLE, S.length)]
    stores := vm.stores ++ (expected_stores (.ref vm.heap.length) S).take k }

/-! ## Lemmas on lists -/

theorem set_last_of_append {α : Type} (H : List α) (o o1 : α) :
    (H ++ [o]).set H.length o1 = H ++ [o1] := by
  induction H with
  | nil => rfl
  | cons h t ih => simp [List.set, ih]

theorem getElem?_append_last {α : Type} (H : List α) (o : α) :
    (H ++ [o])[H.length]? = some o := by
  induction H with
  | nil => rfl
  | cons h t ih => simp

theorem getElem?_append_old {α : Type} (H : List α) (o : α) (a : Nat) (x : α)
    (h : H[a]? = some x) : (H ++ [o])[a]? = some x := by
  induction H generalizing a with
  | nil => simp at h
  | cons y t ih =>
    cases a with
    | zero => simp at h ⊢; exact h
    | succ b =>
      simp only [List.cons_append, List.getElem?_cons_succ] at h ⊢
      exact ih b h

theorem take_set_next {α : Type} (d : α) (S : List α) (k : Nat) (x : α)
    (h : S[k]? = some x) :
    (S.take k ++ List.replicate (S.length - k) d).set k x
      = S.take (k + 1) ++ List.replicate (S.length - (k + 1)) d := by
  induction S generalizing k with
  | nil => simp at h
  | cons y t ih =>
    cases k with
    | zero =>
      simp only [List.getElem?_cons_zero, Option.some.injEq] at h
      subst h
      simp [List.replicate_succ]
    | succ j =>
      simp only [List.getElem?_cons_succ] at h
      have := ih j h
      simpa using this

theorem expected_stores_getElem? (dst : PObject) (S : List PObject) (k : Nat) (x : PObject)
    (h : S[k]? = some x) : (expected_stores dst S)[k]? = some (dst, k, x) := by
  rcases List.getElem?_eq_some.1 h with ⟨hk, hx⟩
  simp [expected_stores, List.getElem?_map, List.getElem?_zip_eq_some, h, hk, hx]

theorem expected_stores_length (dst : PObject) (S : List PObject) :
    (expected_stores dst S).length = S.length := by
  simp [expected_stores]

theorem expected_stores_take_succ (dst : PObject) (S : List PObject) (k : Nat) (x : PObject)
    (h : S[k]? = some x) :
    (expected_stores dst S).take (k + 1) = (expected_stores dst S).take k ++ [(dst, k, x)] := by
  rw [List.take_succ, expected_stores_getElem? dst S k x h]
  rfl

/-! ## The loop, trip by trip -/

theorem state_after_zero (vm : VM) (S : List PObject) :
    psequence_new vm .PTUPLE S.length = (.ref vm.heap.length, state_after vm S 0) := by
  simp [psequence_new, state_after]

theorem state_after_full (vm : VM) (S : List PObject) :
    state_after vm S S.length =
      { heap := vm.heap ++ [⟨.PTUPLE, S⟩]
        res := vm.res
        allocs := vm.allocs ++ [(.PTUPLE, S.length)]
        stores := vm.stores ++ expected_stores (.ref vm.heap.length) S } := by
  have h := expected_stores_length (.ref vm.heap.length) S
  simp [state_after, List.take_of_length_le (le_of_eq h)]

theorem plist_item_state_after (vm : VM) (a : Nat) (S : List PObject) (k j : Nat)
    (hlist : vm.heap[a]? = some ⟨.PLIST, S⟩) :
    PLIST_ITEM (state_after vm S k) (.ref a) j = S[j]? := by
  simp [PLIST_ITEM, state_after, getElem?_append_old _ _ _ _ hlist]

theorem ptuple_set_item_state_after (vm : VM) (S : List PObject) (k : Nat) (x : PObject)
    (hx : S[k]? = some x) :
    PTUPLE_SET_ITEM (state_after vm S k) (.ref vm.heap.length) k x
      = some (state_after vm S (k + 1)) := by
  rcases List.getElem?_eq_some.1 hx with ⟨hk, _⟩
  have hlen : k < min k S.length + (S.length - k) := by omega
  simp [PTUPLE_SET_ITEM, state_after, getElem?_append_last, set_last_of_append, hlen,
    take_set_next _ _ _ _ hx, expected_stores_take_succ _ _ _ _ hx]

theorem for_iter_step (vm : VM) (a : Nat) (S : List PObject) (k : Nat) (x : PObject)
    (hlist : vm.heap[a]? = some ⟨.PLIST, S⟩) (hx : S[k]? = some x)
    (hn : S.length < UINT32_MOD) :
    for_iter S.length (.ref a) (.ref vm.heap.length) k (state_after vm S k)
      = .ok (some (k + 1, state_after vm S (k + 1))) := by
  rcases List.getElem?_eq_some.1 hx with ⟨hk, _⟩
  have h3 : (k + 1) % UINT32_MOD = k + 1 := Nat.mod_eq_of_lt (by omega)
  simp [for_iter, hk, plist_item_state_after vm a S k k hlist, hx,
    ptuple_set_item_state_after vm S k x hx, h3]

theorem for_iter_exit (n : Nat) (src dst : PObject) (i : Nat) (vm : VM) (h : n ≤ i) :
    for_iter n src dst i vm = .ok none := by
  simp [for_iter, Nat.not_lt.2 h]

theorem for_trips_state (vm : VM) (a : Nat) (S : List PObject)
    (hlist : vm.heap[a]? = some ⟨.PLIST, S⟩) (hn : S.length < UINT32_MOD) :
    ∀ j k, k + j ≤ S.length →
      for_trips S.length (.ref a) (.ref vm.heap.length) j k (state_after vm S k)
        = .ok (k + j, state_after vm S (k + j)) := by
  intro j
  induction j with
  | zero => intro k _; rfl
  | succ j ih =>
    intro k hk
    have hlt : k < S.length := by omega
    have hx : S[k]? = some S[k] := List.getElem?_eq_getElem hlt
    rw [for_trips, for_iter_step vm a S k _ hlist hx hn]
    simp only
    rw [ih (k + 1) (by omega), Nat.add_right_comm k 1 j, Nat.add_assoc k j 1]

theorem for_loop_state (vm : VM) (a : Nat) (S : List PObject)
    (hlist : vm.heap[a]? = some ⟨.PLIST, S⟩) (hn : S.length < UINT32_MOD) :
    ∀ fuel k, k ≤ S.length → S.length - k < fuel →
      for_loop S.length (.ref a) (.ref vm.heap.length) fuel k (state_after vm S k)
        = .ok (state_after vm S S.length) := by
  intro fuel
  induction fuel with
  | zero => intro k _ h; omega
  | succ f ih =>
    intro k hk hf
    rcases Nat.lt_or_ge k S.length with hlt | hge
    · have hx : S[k]? = some S[k] := List.getElem?_eq_getElem hlt
      rw [for_loop, for_iter_step vm a S k _ hlist hx hn]
      simp only
      exact ih (k + 1) (by omega) (by omega)
    · have hkn : k = S.length := by omega
      rw [for_loop, for_iter_exit _ _ _ _ _ hge, hkn]

theorem for_loop_starved (vm : VM) (a : Nat) (S : List PObject)
    (hlist : vm.heap[a]? = some ⟨.PLIST, S⟩) (hn : S.length < UINT32_MOD) :
    ∀ fuel k, k ≤ S.length → fuel ≤ S.length - k →
      for_loop S.length (.ref a) (.ref vm.heap.length) fuel k (state_after vm S k)
        = .error .out_of_fuel := by
  intro fuel
  induction fuel with
  | zero => intro k _ _; rfl
  | succ f ih =>
    intro k hk hf
    have hlt : k < S.length := by omega
    have hx : S[k]? = some S[k] := List.getElem?_eq_getElem hlt
    rw [for_loop, for_iter_step vm a S k _ hlist hx hn]
    simp only
    exact ih (k + 1) (by omega) (by omega)

/-- Running the loop with fuel is running `k` trips and then the loop with the
fuel that is left. -/
theorem for_loop_eq_trips (n : Nat) (src dst : PObject) :
    ∀ k fuel i vm, k < fuel →
      for_loop n src dst fuel i vm =
        match for_trips n src dst k i vm with
        | .error e => .error e
        | .ok p => for_loop n src dst (fuel - k) p.1 p.2 := by
  intro k
  induction k with
  | zero => intro fuel i vm _; rfl
  | succ k ih =>
    intro fuel i vm hk
    obtain ⟨f, rfl⟩ : ∃ f, fuel = f + 1 := ⟨fuel - 1, by omega⟩
    rw [for_loop, for_trips]
    cases hit : for_iter n src dst i vm with
    | error e => rfl
    | ok r =>
      cases r with
      | none =>
        simp only
        obtain ⟨g, hg⟩ : ∃ g, f + 1 - (k + 1) = g + 1 := ⟨f - k - 1, by omega⟩
        rw [hg, for_loop, hit]
      | some p =>
        simp only
        rw [ih f p.1 p.2 (by omega)]
        simp

/-! ## The call on a list -/

theorem call_on_list (fuel : Nat) (nargs : Int) (self : PObject) (rest : List PObject)
    (vm : VM) (a : Nat) (S : List PObject)
    (hlist : vm.heap[a]? = some ⟨.PLIST, S⟩) (hn : S.length < UINT32_MOD)
    (hfuel : S.length < fuel) :
    _totuple fuel nargs self (.ref a :: rest) vm =
      .ok (.ERR_OK,
        { heap := vm.heap ++ [⟨.PTUPLE, S⟩]
          res := .ref vm.heap.length
          allocs := vm.allocs ++ [(.PTUPLE, S.length)]
          stores := vm.stores ++ expected_stores (.ref vm.heap.length) S }) := by
  have hmod : S.length % UINT32_MOD = S.length := Nat.mod_eq_of_lt hn
  have hloop := for_loop_state vm a S hlist hn fuel 0 (Nat.zero_le _) (by omega)
  simp only [_totuple, List.getElem?_cons_zero, parse_py_type, PSEQUENCE_ELEMENTS, hlist,
    Option.map_some', hmod, state_after_zero, hloop, state_after_full]
  simp

theorem call_on_list_starved (fuel : Nat) (nargs : Int) (self : PObject) (rest : List PObject)
    (vm : VM) (a : Nat) (S : List PObject)
    (hlist : vm.heap[a]? = some ⟨.PLIST, S⟩) (hn : S.length < UINT32_MOD)
    (hfuel : fuel ≤ S.length) :
    _totuple fuel nargs self (.ref a :: rest) vm = .error .out_of_fuel := by
  have hmod : S.length % UINT32_MOD = S.length := Nat.mod_eq_of_lt hn
  have hloop := for_loop_starved vm a S hlist hn fuel 0 (Nat.zero_le _) (by omega)
  simp only [_totuple, List.getElem?_cons_zero, parse_py_type, PSEQUENCE_ELEMENTS, hlist,
    Option.map_some', hmod, state_after_zero, hloop]
  simp

theorem call_on_non_list (fuel : Nat) (nargs : Int) (self : PObject) (rest : List PObject)
    (vm : VM) (a0 : PObject) (t : PType)
    (ht : parse_py_type vm a0 = some t) (hne : t ≠ .PLIST) :
    _totuple fuel nargs self (a0 :: rest) vm = .ok (.ERR_TYPE_EXC, vm) := by
  simp [_totuple, ht, hne]

theorem expected_stores_indices (dst : PObject) (S : List PObject) :
    (expected_stores dst S).map (fun e => e.2.1) = List.range S.length := by
  simp only [expected_stores, List.map_map]
  have h : ((fun e : PObject × Nat × PObject => e.2.1) ∘
      fun p : Nat × PObject => (dst, p.1, p.2)) = Prod.fst := by
    funext p; rfl
  rw [h, List.map_fst_zip]
  simp

theorem expected_stores_dst (dst : PObject) (S : List PObject) :
    ∀ e ∈ expected_stores dst S, e.1 = dst := by
  intro e he
  simp only [expected_stores, List.mem_map] at he
  rcases he with ⟨p, _, rfl⟩
  rfl

/-! ## The claims -/

/-- C1: when argument 0 is a list `S` of `n` elements (the count fitting the
`uint32_t` it is read into), `_totuple` returns `ERR_OK` and writes to the
result slot a handle to a `PTUPLE` object `T` of length exactly `n` with
`T[i]` the same handle as `S[i]` for every `i < n`. -/
theorem totuple_list_ok (fuel : Nat) (nargs : Int) (self : PObject) (rest : List PObject)
    (vm : VM) (a : Nat) (S : List PObject)
    (hlist : vm.heap[a]? = some ⟨.PLIST, S⟩) (hn : S.length < UINT32_MOD)
    (hfuel : S.length < fuel) :
    ∃ vm1 t T, _totuple fuel nargs self (.ref a :: rest) vm = .ok (.ERR_OK, vm1)
      ∧ vm1.res = .ref t ∧ vm1.heap[t]? = some ⟨.PTUPLE, T⟩
      ∧ T.length = S.length ∧ ∀ i, i < S.length → T[i]? = S[i]? := by
  refine ⟨_, vm.heap.length, S, call_on_list fuel nargs self rest vm a S hlist hn hfuel,
    rfl, ?_, rfl, fun _ _ => rfl⟩
  exact getElem?_append_last _ _

/-- Witness of C1 on the list `[1, 2, 3]`, with the resulting state `(1, 2, 3)`
written out. -/
theorem totuple_list_ok_witness :
    (vm_example.heap[0]? = some ⟨.PLIST, [.smallint 1, .smallint 2, .smallint 3]⟩
      ∧ [PObject.smallint 1, .smallint 2, .smallint 3].length < UINT32_MOD
      ∧ [PObject.smallint 1, .smallint 2, .smallint 3].length < 4)
    ∧ (∃ vm1 t T, _totuple 4 1 .NULL (.ref 0 :: []) vm_example = .ok (.ERR_OK, vm1)
      ∧ vm1.res = .ref t ∧ vm1.heap[t]? = some ⟨.PTUPLE, T⟩
      ∧ T.length = [PObject.smallint 1, .smallint 2, .smallint 3].length
      ∧ ∀ i, i < [PObject.smallint 1, .smallint 2, .smallint 3].length →
          T[i]? = [PObject.smallint 1, .smallint 2, .smallint 3][i]?)
    ∧ _totuple 4 1 .NULL [.ref 0] vm_example =
        .ok (.ERR_OK,
          { heap := [⟨.PLIST, [.smallint 1, .smallint 2, .smallint 3]⟩, ⟨.PDICT, []⟩,
                     ⟨.PTUPLE, [.smallint 1, .smallint 2, .smallint 3]⟩]
            res := .ref 2
            allocs := [(.PTUPLE, 3)]
            stores := [(.ref 2, 0, .smallint 1), (.ref 2, 1, .smallint 2),
                       (.ref 2, 2, .smallint 3)] }) :=
  ⟨⟨by decide, by decide, by decide⟩,
    totuple_list_ok 4 1 .NULL [] vm_example 0 [.smallint 1, .smallint 2, .smallint 3]
      (by decide) (by decide) (by decide),
    by decide⟩

/-- C2: when argument 0 is a valid handle whose type tag is not `PLIST`,
`_totuple` returns the type-mismatch status and the result slot holds what it
held before the call; no store is made. -/
theorem totuple_type_mismatch (fuel : Nat) (nargs : Int) (self : PObject)
    (rest : List PObject) (vm : VM) (a0 : PObject) (t : PType)
    (ht : parse_py_type vm a0 = some t) (hne : t ≠ .PLIST) :
    ∃ vm1, _totuple fuel nargs self (a0 :: rest) vm = .ok (.ERR_TYPE_EXC, vm1)
      ∧ vm1.res = vm.res ∧ vm1.stores = vm.stores :=
  ⟨vm, call_on_non_list fuel nargs self rest vm a0 t ht hne, rfl, rfl⟩

/-- Witness of C2 on the integer 42. -/
theorem totuple_type_mismatch_witness :
    (parse_py_type vm_example (.smallint 42) = some .PSMALLINT ∧ PType.PSMALLINT ≠ .PLIST)
    ∧ ∃ vm1, _totuple 4 1 .NULL (.smallint 42 :: []) vm_example = .ok (.ERR_TYPE_EXC, vm1)
      ∧ vm1.res = vm_example.res ∧ vm1.stores = vm_example.stores :=
  ⟨⟨by decide, by decide⟩,
    totuple_type_mismatch 4 1 .NULL [] vm_example (.smallint 42) .PSMALLINT
      (by decide) (by decide)⟩

/-- C3: when argument 0 is a list `S`, the list object is the same after the
call as before it (same length, same handle at every index), and no store of
the call has the source as its destination. -/
theorem totuple_source_unchanged (fuel : Nat) (nargs : Int) (self : PObject)
    (rest : List PObject) (vm : VM) (a : Nat) (S : List PObject)
    (hlist : vm.heap[a]? = some ⟨.PLIST, S⟩) (hn : S.length < UINT32_MOD)
    (hfuel : S.length < fuel) :
    ∃ vm1 new, _totuple fuel nargs self (.ref a :: rest) vm = .ok (.ERR_OK, vm1)
      ∧ vm1.heap[a]? = some ⟨.PLIST, S⟩
      ∧ PSEQUENCE_ELEMENTS vm1 (.ref a) = PSEQUENCE_ELEMENTS vm (.ref a)
      ∧ (∀ i, PLIST_ITEM vm1 (.ref a) i = PLIST_ITEM vm (.ref a) i)
      ∧ vm1.stores = vm.stores ++ new ∧ ∀ e ∈ new, e.1 ≠ .ref a := by
  have hold : (vm.heap ++ [⟨.PTUPLE, S⟩])[a]? = some ⟨.PLIST, S⟩ :=
    getElem?_append_old _ _ _ _ hlist
  have ha : a < vm.heap.length := (List.getElem?_eq_some.1 hlist).1
  refine ⟨_, expected_stores (.ref vm.heap.length) S,
    call_on_list fuel nargs self rest vm a S hlist hn hfuel, hold, ?_, ?_, rfl, ?_⟩
  · simp [PSEQUENCE_ELEMENTS, hold, hlist]
  · intro i
    simp [PLIST_ITEM, hold, hlist]
  · intro e he
    rw [expected_stores_dst _ _ e he]
    intro h
    injection h with h
    omega

/-- Witness of C3 on the list `[1, 2, 3]`. -/
theorem totuple_source_unchanged_witness :
    (vm_example.heap[0]? = some ⟨.PLIST, [.smallint 1, .smallint 2, .smallint 3]⟩
      ∧ [PObject.smallint 1, .smallint 2, .smallint 3].length < UINT32_MOD
      ∧ [PObject.smallint 1, .smallint 2, .smallint 3].length < 5)
    ∧ ∃ vm1 new, _totuple 5 1 .NULL (.ref 0 :: []) vm_example = .ok (.ERR_OK, vm1)
      ∧ vm1.heap[0]? = some ⟨.PLIST, [.smallint 1, .smallint 2, .smallint 3]⟩
      ∧ PSEQUENCE_ELEMENTS vm1 (.ref 0) = PSEQUENCE_ELEMENTS vm_example (.ref 0)
      ∧ (∀ i, PLIST_ITEM vm1 (.ref 0) i = PLIST_ITEM vm_example (.ref 0) i)
      ∧ vm1.stores = vm_example.stores ++ new ∧ ∀ e ∈ new, e.1 ≠ .ref 0 :=
  ⟨⟨by decide, by decide, by decide⟩,
    totuple_source_unchanged 5 1 .NULL [] vm_example 0
      [.smallint 1, .smallint 2, .smallint 3] (by decide) (by decide) (by decide)⟩

/-- C4: when argument 0 is a valid handle whose type tag is not `PLIST`,
`_totuple` performs no allocation: the heap and the log of allocation requests
after the failing call are those before it. -/
theorem totuple_mismatch_no_alloc (fuel : Nat) (nargs : Int) (self : PObject)
    (rest : List PObject) (vm : VM) (a0 : PObject) (t : PType)
    (ht : parse_py_type vm a0 = some t) (hne : t ≠ .PLIST) :
    ∃ vm1, _totuple fuel nargs self (a0 :: rest) vm = .ok (.ERR_TYPE_EXC, vm1)
      ∧ vm1.heap = vm.heap ∧ vm1.allocs = vm.allocs :=
  ⟨vm, call_on_non_list fuel nargs self rest vm a0 t ht hne, rfl, rfl⟩

/-- Witness of C4 on a mapping. -/
theorem totuple_mismatch_no_alloc_witness :
    (parse_py_type vm_example (.ref 1) = some .PDICT ∧ PType.PDICT ≠ .PLIST)
    ∧ ∃ vm1, _totuple 0 1 .NULL (.ref 1 :: []) vm_example = .ok (.ERR_TYPE_EXC, vm1)
      ∧ vm1.heap = vm_example.heap ∧ vm1.allocs = vm_example.allocs :=
  ⟨⟨by decide, by decide⟩,
    totuple_mismatch_no_alloc 0 1 .NULL [] vm_example (.ref 1) .PDICT
      (by decide) (by decide)⟩

/-- C5: when argument 0 is a list of `n` elements, `_totuple` makes exactly one
allocation request, for a `PTUPLE` of `n` slots; the heap grows by that one
object, a tuple of `n` elements, and every object allocated before the call
(the source included) is unchanged. -/
theorem totuple_one_alloc (fuel : Nat) (nargs : Int) (self : PObject)
    (rest : List PObject) (vm : VM) (a : Nat) (S : List PObject)
    (hlist : vm.heap[a]? = some ⟨.PLIST, S⟩) (hn : S.length < UINT32_MOD)
    (hfuel : S.length < fuel) :
    ∃ vm1 T, _totuple fuel nargs self (.ref a :: rest) vm = .ok (.ERR_OK, vm1)
      ∧ vm1.allocs = vm.allocs ++ [(.PTUPLE, S.length)]
      ∧ vm1.heap.length = vm.heap.length + 1
      ∧ vm1.heap[vm.heap.length]? = some ⟨.PTUPLE, T⟩ ∧ T.length = S.length
      ∧ ∀ (b : Nat) (o : HeapObj), vm.heap[b]? = some o → vm1.heap[b]? = some o := by
  refine ⟨_, S, call_on_list fuel nargs self rest vm a S hlist hn hfuel, rfl, ?_, ?_, rfl, ?_⟩
  · simp
  · exact getElem?_append_last _ _
  · intro b o hb
    exact getElem?_append_old _ _ _ _ hb

/-- Witness of C5 on the list `[1, 2, 3]`. -/
theorem totuple_one_alloc_witness :
    (vm_example.heap[0]? = some ⟨.PLIST, [.smallint 1, .smallint 2, .smallint 3]⟩
      ∧ [PObject.smallint 1, .smallint 2, .smallint 3].length < UINT32_MOD
      ∧ [PObject.smallint 1, .smallint 2, .smallint 3].length < 6)
    ∧ ∃ vm1 T, _totuple 6 1 .NULL (.ref 0 :: []) vm_example = .ok (.ERR_OK, vm1)
      ∧ vm1.allocs = vm_example.allocs
          ++ [(.PTUPLE, [PObject.smallint 1, .smallint 2, .smallint 3].length)]
      ∧ vm1.heap.length = vm_example.heap.length + 1
      ∧ vm1.heap[vm_example.heap.length]? = some ⟨.PTUPLE, T⟩
      ∧ T.length = [PObject.smallint 1, .smallint 2, .smallint 3].length
      ∧ ∀ (b : Nat) (o : HeapObj), vm_example.heap[b]? = some o → vm1.heap[b]? = some o :=
  ⟨⟨by decide, by decide, by decide⟩,
    totuple_one_alloc 6 1 .NULL [] vm_example 0
      [.smallint 1, .smallint 2, .smallint 3] (by decide) (by decide) (by decide)⟩

/-- C6: calling `_totuple` twice on the same list `S` writes two handles `T1`
and `T2` to the result slot that are distinct from each other and from the
source, each designating a tuple of length `n` whose element `i` is the handle
`S[i]`; the first tuple is intact after the second call. -/
theorem totuple_twice_distinct (fuel1 fuel2 : Nat) (nargs1 nargs2 : Int)
    (self1 self2 : PObject) (rest1 rest2 : List PObject)
    (vm : VM) (a : Nat) (S : List PObject)
    (hlist : vm.heap[a]? = some ⟨.PLIST, S⟩) (hn : S.length < UINT32_MOD)
    (hf1 : S.length < fuel1) (hf2 : S.length < fuel2) :
    ∃ vm1 vm2 t1 t2 T1 T2,
      _totuple fuel1 nargs1 self1 (.ref a :: rest1) vm = .ok (.ERR_OK, vm1)
      ∧ _totuple fuel2 nargs2 self2 (.ref a :: rest2) vm1 = .ok (.ERR_OK, vm2)
      ∧ vm1.res = .ref t1 ∧ vm2.res = .ref t2
      ∧ t1 ≠ t2 ∧ t1 ≠ a ∧ t2 ≠ a
      ∧ vm1.heap[t1]? = some ⟨.PTUPLE, T1⟩
      ∧ vm2.heap[t1]? = some ⟨.PTUPLE, T1⟩
      ∧ vm2.heap[t2]? = some ⟨.PTUPLE, T2⟩
      ∧ T1.length = S.length ∧ T2.length = S.length
      ∧ ∀ i, i < S.length → T1[i]? = S[i]? ∧ T2[i]? = S[i]? := by
  have ha : a < vm.heap.length := (List.getElem?_eq_some.1 hlist).1
  have h1 := call_on_list fuel1 nargs1 self1 rest1 vm a S hlist hn hf1
  have hl1 : (vm.heap ++ [(⟨.PTUPLE, S⟩ : HeapObj)])[a]? = some ⟨.PLIST, S⟩ :=
    getElem?_append_old _ _ _ _ hlist
  have h2 := call_on_list fuel2 nargs2 self2 rest2
    { heap := vm.heap ++ [⟨.PTUPLE, S⟩]
      res := .ref vm.heap.length
      allocs := vm.allocs ++ [(.PTUPLE, S.length)]
      stores := vm.stores ++ expected_stores (.ref vm.heap.length) S } a S hl1 hn hf2
  have hlen : (vm.heap ++ [(⟨.PTUPLE, S⟩ : HeapObj)]).length = vm.heap.length + 1 := by simp
  have ht1 : (vm.heap ++ [(⟨.PTUPLE, S⟩ : HeapObj)])[vm.heap.length]? = some ⟨.PTUPLE, S⟩ :=
    getElem?_append_last _ _
  refine ⟨_, _, vm.heap.length, vm.heap.length + 1, S, S, h1, h2, rfl, ?_, ?_, ?_, ?_,
    ht1, ?_, ?_, rfl, rfl, fun _ _ => ⟨rfl, rfl⟩⟩
  · simp
  · omega
  · omega
  · omega
  · exact getElem?_append_old _ _ _ _ ht1
  · rw [← hlen]
    exact getElem?_append_last _ _

/-- Witness of C6 on the list `[1, 2, 3]`. -/
theorem totuple_twice_distinct_witness :
    (vm_example.heap[0]? = some ⟨.PLIST, [.smallint 1, .smallint 2, .smallint 3]⟩
      ∧ [PObject.smallint 1, .smallint 2, .smallint 3].length < UINT32_MOD
      ∧ [PObject.smallint 1, .smallint 2, .smallint 3].length < 4
      ∧ [PObject.smallint 1, .smallint 2, .smallint 3].length < 7)
    ∧ ∃ vm1 vm2 t1 t2 T1 T2,
      _totuple 4 1 .NULL (.ref 0 :: []) vm_example = .ok (.ERR_OK, vm1)
      ∧ _totuple 7 2 (.ref 1) (.ref 0 :: [.NULL]) vm1 = .ok (.ERR_OK, vm2)
      ∧ vm1.res = .ref t1 ∧ vm2.res = .ref t2
      ∧ t1 ≠ t2 ∧ t1 ≠ 0 ∧ t2 ≠ 0
      ∧ vm1.heap[t1]? = some ⟨.PTUPLE, T1⟩
      ∧ vm2.heap[t1]? = some ⟨.PTUPLE, T1⟩
      ∧ vm2.heap[t2]? = some ⟨.PTUPLE, T2⟩
      ∧ T1.length = [PObject.smallint 1, .smallint 2, .smallint 3].length
      ∧ T2.length = [PObject.smallint 1, .smallint 2, .smallint 3].length
      ∧ ∀ i, i < [PObject.smallint 1, .smallint 2, .smallint 3].length →
          T1[i]? = [PObject.smallint 1, .smallint 2, .smallint 3][i]?
          ∧ T2[i]? = [PObject.smallint 1, .smallint 2, .smallint 3][i]? :=
  ⟨⟨by decide, by decide, by decide, by decide⟩,
    totuple_twice_distinct 4 7 1 2 .NULL (.ref 1) [] [.NULL] vm_example 0
      [.smallint 1, .smallint 2, .smallint 3] (by decide) (by decide) (by decide) (by decide)⟩

/-- C7: on the empty list `_totuple` returns `ERR_OK` and writes to the result
slot a handle to a freshly allocated tuple of length 0; the first test of the
loop exits, so the body runs zero times and no store is made. -/
theorem totuple_empty (fuel : Nat) (nargs : Int) (self : PObject) (rest : List PObject)
    (vm : VM) (a : Nat)
    (hlist : vm.heap[a]? = some ⟨.PLIST, []⟩) (hfuel : 0 < fuel) :
    ∃ vm1 T, _totuple fuel nargs self (.ref a :: rest) vm = .ok (.ERR_OK, vm1)
      ∧ vm1.res = .ref vm.heap.length
      ∧ vm1.heap[vm.heap.length]? = some ⟨.PTUPLE, T⟩ ∧ T.length = 0
      ∧ vm1.allocs = vm.allocs ++ [(.PTUPLE, 0)]
      ∧ vm1.stores = vm.stores
      ∧ for_iter 0 (.ref a) (.ref vm.heap.length) 0 (psequence_new vm .PTUPLE 0).2
          = .ok none := by
  have hn : ([] : List PObject).length < UINT32_MOD := by decide
  refine ⟨_, [], call_on_list fuel nargs self rest vm a [] hlist hn hfuel, rfl, ?_, rfl, rfl,
    ?_, for_iter_exit _ _ _ _ _ (Nat.le_refl 0)⟩
  · exact getElem?_append_last _ _
  · simp [expected_stores]

/-- Witness of C7 on a heap holding the empty list. -/
theorem totuple_empty_witness :
    (vm_empty.heap[0]? = some ⟨.PLIST, []⟩ ∧ 0 < 1)
    ∧ ∃ vm1 T, _totuple 1 1 .NULL (.ref 0 :: []) vm_empty = .ok (.ERR_OK, vm1)
      ∧ vm1.res = .ref vm_empty.heap.length
      ∧ vm1.heap[vm_empty.heap.length]? = some ⟨.PTUPLE, T⟩ ∧ T.length = 0
      ∧ vm1.allocs = vm_empty.allocs ++ [(.PTUPLE, 0)]
      ∧ vm1.stores = vm_empty.stores
      ∧ for_iter 0 (.ref 0) (.ref vm_empty.heap.length) 0 (psequence_new vm_empty .PTUPLE 0).2
          = .ok none :=
  ⟨⟨by decide, by decide⟩, totuple_empty 1 1 .NULL [] vm_empty 0 (by decide) (by decide)⟩

/-- C8: for a list `S` of length `n` the stores `_totuple` makes are exactly
`(0, S[0]), (1, S[1]), ..., (n-1, S[n-1])` in that order, all to the new tuple:
the indices are `0, 1, ..., n-1`, each once; and after `k` trips of the loop
the counter is `k`, the first `k` slots of the destination are the first `k`
elements of the source and the first `k` stores have been made. -/
theorem totuple_store_order (fuel : Nat) (nargs : Int) (self : PObject)
    (rest : List PObject) (vm : VM) (a : Nat) (S : List PObject)
    (hlist : vm.heap[a]? = some ⟨.PLIST, S⟩) (hn : S.length < UINT32_MOD)
    (hfuel : S.length < fuel) :
    ∃ vm1 new, _totuple fuel nargs self (.ref a :: rest) vm = .ok (.ERR_OK, vm1)
      ∧ vm1.res = .ref vm.heap.length
      ∧ vm1.stores = vm.stores ++ new
      ∧ new = ((List.range S.length).zip S).map (fun p => (.ref vm.heap.length, p.1, p.2))
      ∧ new.map (fun e => e.2.1) = List.range S.length
      ∧ ∀ k, k ≤ S.length → ∃ vmk T,
          for_trips S.length (.ref a) (.ref vm.heap.length) k 0
            (psequence_new vm .PTUPLE S.length).2 = .ok (k, vmk)
          ∧ vmk.heap[vm.heap.length]? = some ⟨.PTUPLE, T⟩
          ∧ T.length = S.length ∧ T.take k = S.take k
          ∧ vmk.stores = vm.stores ++ new.take k := by
  refine ⟨_, expected_stores (.ref vm.heap.length) S,
    call_on_list fuel nargs self rest vm a S hlist hn hfuel, rfl, rfl, rfl,
    expected_stores_indices _ _, ?_⟩
  intro k hk
  have ht := for_trips_state vm a S hlist hn k 0 (by omega)
  rw [Nat.zero_add] at ht
  refine ⟨state_after vm S k, S.take k ++ List.replicate (S.length - k) .NULL, ?_, ?_, ?_, ?_,
    rfl⟩
  · rw [state_after_zero]
    exact ht
  · exact getElem?_append_last _ _
  · simp
    omega
  · have hlen : (S.take k).length = k := by simp [hk]
    rw [List.take_append_of_le_length (le_of_eq hlen.symm), List.take_take]
    simp

/-- Witness of C8 on the list `[1, 2, 3]`. -/
theorem totuple_store_order_witness :
    (vm_example.heap[0]? = some ⟨.PLIST, [.smallint 1, .smallint 2, .smallint 3]⟩
      ∧ [PObject.smallint 1, .smallint 2, .smallint 3].length < UINT32_MOD
      ∧ [PObject.smallint 1, .smallint 2, .smallint 3].length < 8)
    ∧ ∃ vm1 new, _totuple 8 1 .NULL (.ref 0 :: []) vm_example = .ok (.ERR_OK, vm1)
      ∧ vm1.res = .ref vm_example.heap.length
      ∧ vm1.stores = vm_example.stores ++ new
      ∧ new = ((List.range [PObject.smallint 1, .smallint 2, .smallint 3].length).zip
            [PObject.smallint 1, .smallint 2, .smallint 3]).map
              (fun p => (.ref vm_example.heap.length, p.1, p.2))
      ∧ new.map (fun e => e.2.1)
          = List.range [PObject.smallint 1, .smallint 2, .smallint 3].length
      ∧ ∀ k, k ≤ [PObject.smallint 1, .smallint 2, .smallint 3].length → ∃ vmk T,
          for_trips [PObject.smallint 1, .smallint 2, .smallint 3].length (.ref 0)
            (.ref vm_example.heap.length) k 0
            (psequence_new vm_example .PTUPLE
              [PObject.smallint 1, .smallint 2, .smallint 3].length).2 = .ok (k, vmk)
          ∧ vmk.heap[vm_example.heap.length]? = some ⟨.PTUPLE, T⟩
          ∧ T.length = [PObject.smallint 1, .smallint 2, .smallint 3].length
          ∧ T.take k = [PObject.smallint 1, .smallint 2, .smallint 3].take k
          ∧ vmk.stores = vm_example.stores ++ new.take k :=
  ⟨⟨by decide, by decide, by decide⟩,
    totuple_store_order 8 1 .NULL [] vm_example 0
      [.smallint 1, .smallint 2, .smallint 3] (by decide) (by decide) (by decide)⟩

/-- C9: for a list `S` of length `n < 2^32`, the trip number `k` of the loop
(for every `k < n`) starts with counter `k`, where `k` is below the element
count of the source and below the length of the destination, so the read of
the source and the store in the destination both succeed, and the increment
`k + 1` does not wrap modulo `2^32`; whatever the fuel, the call never stops on
an access outside an object. -/
theorem totuple_indices_in_range (nargs : Int) (self : PObject) (rest : List PObject)
    (vm : VM) (a : Nat) (S : List PObject)
    (hlist : vm.heap[a]? = some ⟨.PLIST, S⟩) (hn : S.length < UINT32_MOD) :
    (∀ k, k < S.length → ∃ vmk x,
        for_trips S.length (.ref a) (.ref vm.heap.length) k 0
          (psequence_new vm .PTUPLE S.length).2 = .ok (k, vmk)
        ∧ PSEQUENCE_ELEMENTS vmk (.ref a) = some S.length
        ∧ PSEQUENCE_ELEMENTS vmk (.ref vm.heap.length) = some S.length
        ∧ PLIST_ITEM vmk (.ref a) k = some x
        ∧ (PTUPLE_SET_ITEM vmk (.ref vm.heap.length) k x).isSome
        ∧ (k + 1) % UINT32_MOD = k + 1)
    ∧ ∀ fuel, _totuple fuel nargs self (.ref a :: rest) vm ≠ .error .invalid_access := by
  constructor
  · intro k hk
    have hx : S[k]? = some S[k] := List.getElem?_eq_getElem hk
    have ht := for_trips_state vm a S hlist hn k 0 (by omega)
    rw [Nat.zero_add] at ht
    refine ⟨state_after vm S k, S[k], ?_, ?_, ?_, ?_, ?_, Nat.mod_eq_of_lt (by omega)⟩
    · rw [state_after_zero]
      exact ht
    · simp [PSEQUENCE_ELEMENTS, state_after, getElem?_append_old _ _ _ _ hlist]
    · simp [PSEQUENCE_ELEMENTS, state_after, getElem?_append_last]
      omega
    · rw [plist_item_state_after vm a S k k hlist, hx]
    · rw [ptuple_set_item_state_after vm S k _ hx]
      rfl
  · intro fuel
    rcases Nat.lt_or_ge S.length fuel with h | h
    · rw [call_on_list fuel nargs self rest vm a S hlist hn h]
      intro hc
      cases hc
    · rw [call_on_list_starved fuel nargs self rest vm a S hlist hn h]
      intro hc
      cases hc

/-- Witness of C9 on the list `[1, 2, 3]`. -/
theorem totuple_indices_in_range_witness :
    (vm_example.heap[0]? = some ⟨.PLIST, [.smallint 1, .smallint 2, .smallint 3]⟩
      ∧ [PObject.smallint 1, .smallint 2, .smallint 3].length < UINT32_MOD)
    ∧ (∀ k, k < [PObject.smallint 1, .smallint 2, .smallint 3].length → ∃ vmk x,
        for_trips [PObject.smallint 1, .smallint 2, .smallint 3].length (.ref 0)
          (.ref vm_example.heap.length) k 0
          (psequence_new vm_example .PTUPLE
            [PObject.smallint 1, .smallint 2, .smallint 3].length).2 = .ok (k, vmk)
        ∧ PSEQUENCE_ELEMENTS vmk (.ref 0)
            = some [PObject.smallint 1, .smallint 2, .smallint 3].length
        ∧ PSEQUENCE_ELEMENTS vmk (.ref vm_example.heap.length)
            = some [PObject.smallint 1, .smallint 2, .smallint 3].length
        ∧ PLIST_ITEM vmk (.ref 0) k = some x
        ∧ (PTUPLE_SET_ITEM vmk (.ref vm_example.heap.length) k x).isSome
        ∧ (k + 1) % UINT32_MOD = k + 1)
    ∧ ∀ fuel, _totuple fuel 1 .NULL (.ref 0 :: []) vm_example ≠ .error .invalid_access :=
  ⟨⟨by decide, by decide⟩,
    totuple_indices_in_range 1 .NULL [] vm_example 0
      [.smallint 1, .smallint 2, .smallint 3] (by decide) (by decide)⟩

/-- C10: the outcome of `_totuple` depends on argument 0 only: two calls in the
same state whose argument arrays agree on `args[0]` return the same status and
the same resulting state (hence the same tuple contents), whatever the
argument counts, the receivers and the further arguments. -/
theorem totuple_depends_on_arg0_only (fuel : Nat) (nargs1 nargs2 : Int)
    (self1 self2 : PObject) (args1 args2 : List PObject) (vm : VM)
    (h : args1[0]? = args2[0]?) :
    _totuple fuel nargs1 self1 args1 vm = _totuple fuel nargs2 self2 args2 vm := by
  simp only [_totuple, h]

/-- Witness of C10: one argument against three, with different counts and
receivers. -/
theorem totuple_depends_on_arg0_only_witness :
    ([PObject.ref 0][0]? = [PObject.ref 0, .smallint 7, .ref 1][0]?)
    ∧ _totuple 4 1 .NULL [.ref 0] vm_example
        = _totuple 4 3 (.ref 1) [.ref 0, .smallint 7, .ref 1] vm_example :=
  ⟨by decide,
    totuple_depends_on_arg0_only 4 1 3 .NULL (.ref 1) [.ref 0] [.ref 0, .smallint 7, .ref 1]
      vm_example (by decide)⟩

end Zerynth
